import Mathlib

/-
Verification development for the anypay-rust real-time payments hub.

The Rust sources are shallowly embedded:
 * machine integers (i32, i64) are modelled as Int, with explicit
   truncation/saturation where a cast occurs;
 * f64 values that the source immediately converts to decimal strings and
   back (price values, conversion inputs/outputs) are modelled by the
   decimal they print as, carried as a BigDec (mantissa, scale) pair,
   mirroring the bigdecimal crate used by src/src/prices.rs;
 * RFC3339 timestamp strings are modelled by their underlying time value
   as an integer number of seconds, with to_rfc3339/parse as the identity
   embedding (the round trip is exact and order preserving);
 * the Supabase store is modelled as an explicit DB record; store
   operations that only read are pure lookups, operations that write
   return an updated DB;
 * fallible Rust code returns a Run value (ok / err / panic), where err
   is an anyhow error propagated with the question-mark operator and
   panic is an actual process panic (unwrap on Err, division by zero).
-/

namespace Anypay

/-! ## BigDecimal model (the bigdecimal crate as used by src/src/prices.rs)

A BigDecimal is an arbitrary-precision integer mantissa together with a
decimal scale: the represented value is intVal / 10 ^ scale.  The crate
operations used by the source are from_str, mul, div and with_scale. -/

structure BigDec where
  intVal : Int
  scale : Int
deriving Repr, DecidableEq

/-- The rational value represented by a BigDec. -/
def BigDec.val (a : BigDec) : ℚ :=
  if 0 ≤ a.scale then (a.intVal : ℚ) / (10 : ℚ) ^ a.scale.toNat
  else (a.intVal : ℚ) * (10 : ℚ) ^ (-a.scale).toNat

/-- BigDecimal multiplication: mantissas multiply, scales add. -/
def BigDec.mul (a b : BigDec) : BigDec :=
  ⟨a.intVal * b.intVal, a.scale + b.scale⟩

/-- bigdecimal's with_scale: raising the scale multiplies the mantissa by a
power of ten; lowering it divides the mantissa with BigInt division, which
truncates toward zero.  (The crate's rounding variant with_scale_round is
not used by this source.) -/
def BigDec.withScale (a : BigDec) (newScale : Int) : BigDec :=
  if a.scale < newScale then
    ⟨a.intVal * 10 ^ (newScale - a.scale).toNat, newScale⟩
  else if newScale < a.scale then
    ⟨a.intVal.tdiv (10 ^ (a.scale - newScale).toNat), newScale⟩
  else a

/-- Decimal digit count of a positive integer (count_decimal_digits). -/
def countDigits (n : Int) : Nat := Nat.log 10 n.natAbs + 1

/-- The digit-shifting preamble of bigdecimal impl_division: multiply the
numerator by ten (raising the scale) until it reaches the denominator.
Only ever called with a positive numerator; the positivity guard makes the
recursion well-founded without changing the behaviour at those calls. -/
def divShift (den : Int) (num : Int) (scale : Int) : Int × Int :=
  if h : 0 < num ∧ num < den then
    divShift den (num * 10) (scale + 1)
  else (num, scale)
termination_by (den - num).toNat
decreasing_by
  simp_wf
  omega

/-- The digit-production loop of bigdecimal impl_division: while the
remainder is nonzero and precision remains, emit one quotient digit.  The
fuel argument is max_precision minus the digits already produced. -/
def divDigits (den : Int) : Nat → Int → Int → Int → Int × Int × Int
  | 0, q, r, s => (q, r, s)
  | k + 1, q, r, s =>
    if r = 0 then (q, r, s)
    else divDigits den k (q * 10 + r.tdiv den) (r.tmod den * 10) (s + 1)

/-- bigdecimal impl_division for positive numerator and denominator, at the
crate's DEFAULT_PRECISION of 100 significant digits; the final digit is
rounded up exactly when the next digit would be at least five. -/
def implDivisionPos (num den : Int) (scale : Int) : BigDec :=
  let p := divShift den num scale
  let q := p.1.tdiv den
  let r := p.1.tmod den
  if r = 0 then ⟨q, p.2⟩
  else
    let t := divDigits den (100 - countDigits q) q (r * 10) p.2
    if t.2.1 = 0 then ⟨t.1, t.2.2⟩
    else ⟨t.1 + (if 5 ≤ t.2.1.tdiv den then 1 else 0), t.2.2⟩

/-- bigdecimal impl_division: zero numerator short-circuits, signs are taken
out, and the positive case does the work.  Division by zero is a crate
panic and is handled by the caller. -/
def implDivision (num den : Int) (scale : Int) : BigDec :=
  if num = 0 then ⟨0, 0⟩
  else if num < 0 then
    if den < 0 then implDivisionPos (-num) (-den) scale
    else
      let d := implDivisionPos (-num) den scale
      ⟨-d.intVal, d.scale⟩
  else if den < 0 then
    let d := implDivisionPos num (-den) scale
    ⟨-d.intVal, d.scale⟩
  else implDivisionPos num den scale

/-- BigDecimal division (the Div impl): result scale starts at the
difference of the scales. -/
def BigDec.div (a b : BigDec) : BigDec :=
  implDivision a.intVal b.intVal (a.scale - b.scale)

/-! ## Rounding reference functions (spec side)

These express the two rounding policies the specification talks about, at
the fixed scale of 8 decimal digits used by the converter. -/

/-- Truncation toward zero of a rational to an integer. -/
def truncTowardZero (x : ℚ) : Int := if 0 ≤ x then ⌊x⌋ else -⌊-x⌋

/-- Truncation toward zero at a fixed scale of 8 decimal digits. -/
def truncAtScale8 (x : ℚ) : ℚ := (truncTowardZero (x * 10 ^ 8) : ℚ) / 10 ^ 8

/-- Half-up rounding at a fixed scale of 8 decimal digits (ties away from
zero for the nonnegative values considered here). -/
def halfUpAtScale8 (x : ℚ) : ℚ := ((⌊x * 10 ^ 8 + 1 / 2⌋ : ℤ) : ℚ) / 10 ^ 8

/-! ## Outcomes of fallible Rust code

ok is a normal return, err an anyhow error propagated by the caller with
the question-mark operator, panic an actual process panic. -/

inductive Run (α : Type) where
  | ok (a : α)
  | err (msg : String)
  | panic (msg : String)
deriving Repr, DecidableEq

/-! ## Price rows and the converter (src/src/prices.rs)

find_price selects from the prices table with eq filters on base_currency
and currency, and yields the first row if any; it is abstracted here as a
function from the two filter values to a store outcome, so that both store
errors and arbitrary table contents are representable. -/

structure PriceRow where
  currency : String
  base_currency : String
  value : BigDec
deriving Repr, DecidableEq

def PriceSource : Type := String → String → Except String (Option PriceRow)

structure ConversionRequest where
  quote_currency : String
  base_currency : String
  quote_value : BigDec
deriving Repr, DecidableEq

/-- convert (src/src/prices.rs lines 52-109).  The base_value is modelled as
the BigDec the source builds before its final to_string/parse step; both
find_price calls are unwrapped, so a store error is a panic, and a zero
inverse rate panics inside BigDecimal division. -/
def convert (findPrice : PriceSource) (req : ConversionRequest) : Run BigDec :=
  match findPrice req.base_currency req.quote_currency with
  | .error e => .panic e
  | .ok (some price) =>
      .ok ((req.quote_value.mul price.value).withScale 8)
  | .ok none =>
    match findPrice req.quote_currency req.base_currency with
    | .error e => .panic e
    | .ok (some inverse) =>
        if inverse.value.intVal = 0 then .panic "Division by zero"
        else .ok ((((⟨1, 0⟩ : BigDec).div inverse.value).mul req.quote_value).withScale 8)
    | .ok none =>
        .err ("No price for " ++ req.quote_currency ++ " to " ++ req.base_currency)

/-- The exact pre-rounding product of the conversion pipeline on the path
convert takes for the given store: quote_value times the direct rate, or
quote_value times the reciprocal of the inverse rate as computed by
BigDecimal division at its default precision.  Only meaningful on inputs
where convert succeeds. -/
def convertExactProduct (findPrice : PriceSource) (req : ConversionRequest) : ℚ :=
  match findPrice req.base_currency req.quote_currency with
  | .ok (some price) => req.quote_value.val * price.value.val
  | _ =>
    match findPrice req.quote_currency req.base_currency with
    | .ok (some inverse) => ((⟨1, 0⟩ : BigDec).div inverse.value).val * req.quote_value.val
    | _ => 0

/-- Spec-side outcome of a conversion, with the numeric result as a plain
rational. -/
inductive SpecConvOutcome where
  | ok (base_value : ℚ)
  | noRate (msg : String)
  | panic
deriving Repr, DecidableEq

def Run.toSpecConv : Run BigDec → SpecConvOutcome
  | .ok b => .ok b.val
  | .err m => .noRate m
  | .panic _ => .panic

/-- Spec-side converter, written from the amended wording of the claim:
direct lookup of (base_currency, quote_currency) first, multiplying by the
rate; otherwise the inverted pair, multiplying by the reciprocal computed
at BigDecimal default division precision; either product truncated toward
zero at a fixed scale of 8 decimal digits; otherwise the NoRate error with
the stated message; lookups are unwrapped, so store failures escape, as
does a zero inverse rate. -/
def specConvert (findPrice : PriceSource) (req : ConversionRequest) : SpecConvOutcome :=
  match findPrice req.base_currency req.quote_currency with
  | .error _ => .panic
  | .ok (some price) => .ok (truncAtScale8 (req.quote_value.val * price.value.val))
  | .ok none =>
    match findPrice req.quote_currency req.base_currency with
    | .error _ => .panic
    | .ok (some inverse) =>
        if inverse.value.intVal = 0 then .panic
        else
          .ok (truncAtScale8 (((⟨1, 0⟩ : BigDec).div inverse.value).val * req.quote_value.val))
    | .ok none =>
        .noRate ("No price for " ++ req.quote_currency ++ " to " ++ req.base_currency)

/-- One decimal-scale shift: multiplying a BigDec by 10 ^ p lowers its
scale by p and leaves the mantissa unchanged. -/
def BigDec.mulPow10 (b : BigDec) (p : Nat) : BigDec := ⟨b.intVal, b.scale - p⟩

/-- Rust str::to_lowercase, restricted to the ASCII range the currency
tickers of this system live in (String.toLower of the Lean core library
is not usable here because its worker is a partial def). -/
def lowerChar (c : Char) : Char :=
  if 65 ≤ c.toNat ∧ c.toNat ≤ 90 then Char.ofNat (c.toNat + 32) else c

def lowerString (str : String) : String := ⟨str.data.map lowerChar⟩

/-! ## Coins and smallest-unit conversion (src/src/payment/mod.rs) -/

structure Coin where
  currency : String
  chain : String
  precision : Option Int
  unavailable : Bool
deriving Repr, DecidableEq

def CoinSource : Type := String → String → Except String (Option Coin)

structure ToSatoshisRequest where
  decimal : BigDec
  currency : String
  chain : String

def i64Max : Int := 9223372036854775807

def i64Min : Int := -9223372036854775808

/-- The Rust as-i64 cast from f64: truncation toward zero, saturating at
the i64 bounds. -/
def castToI64 (x : ℚ) : Int :=
  let t := truncTowardZero x
  if t < i64Min then i64Min else if i64Max < t then i64Max else t

/-- The same cast performed on a BigDec carrier (executable form used by
the embedded program). -/
def i64SatTrunc (b : BigDec) : Int :=
  let t := (b.withScale 0).intVal
  if t < i64Min then i64Min else if i64Max < t then i64Max else t

/-- The precision match in to_satoshis (src/src/payment/mod.rs lines
79-83): 8 for the BTC and BSV chains, 18 for the ETH chain, and 6 for
every other chain.  The fetched coin row is used only as an existence
check; its stored precision is never read. -/
def toSatoshisPrecision (chain : String) : Nat :=
  if chain = "BTC" ∨ chain = "BSV" then 8
  else if chain = "ETH" then 18
  else 6

/-- to_satoshis (src/src/payment/mod.rs lines 73-87).  The f64 product
with the power of ten is modelled exactly over the rationals. -/
def to_satoshis (getCoin : CoinSource) (req : ToSatoshisRequest) : Run Int :=
  match getCoin req.currency req.chain with
  | .error e => .err ("Failed to get coin: " ++ e)
  | .ok none => .err "Coin not found"
  | .ok (some _) =>
      .ok (i64SatTrunc (req.decimal.mulPow10 (toSatoshisPrecision req.chain)))

/-- get_fee rate table (src/src/payment/mod.rs lines 89-95): 0.0001 for
BTC and BSV, 0.001 for ETH, MATIC and every other currency (the two match
arms collapse to the same value). -/
def get_fee_rate (currency : String) : BigDec :=
  if currency = "BTC" ∨ currency = "BSV" then ⟨1, 4⟩
  else ⟨1, 3⟩

/-- get_fee (src/src/payment/mod.rs lines 89-102), amount times the rate,
cast to i64. -/
def get_fee (currency : String) (amount : Int) : Int :=
  i64SatTrunc ((⟨amount, 0⟩ : BigDec).mul (get_fee_rate currency))

/-! ## Invoice URIs -/

/-- compute_invoice_uri from src/src/uri.rs lines 9-12, the function that
src/src/payment_options.rs imports and uses for payment options. -/
def compute_invoice_uri (currency uid : String) : String :=
  "anypay:" ++ lowerString currency ++ "_" ++ uid

/-- The protocol table of src/src/payment/uri.rs, defaulting to pay. -/
def protocolFor (currency : String) : String :=
  if currency = "DASH" then "dash"
  else if currency = "ZEC" then "zcash"
  else if currency = "BTC" then "bitcoin"
  else if currency = "LTC" then "litecoin"
  else if currency = "ETH" then "ethereum"
  else if currency = "XMR" then "monero"
  else if currency = "DOGE" then "dogecoin"
  else if currency = "BCH" then "bitcoincash"
  else if currency = "XRP" then "ripple"
  else if currency = "ZEN" then "horizen"
  else if currency = "SMART" then "smartcash"
  else if currency = "RVN" then "ravencoin"
  else if currency = "BSV" then "pay"
  else "pay"

def defaultBaseUrl : String := "https://api.anypayx.com"

/-- compute_invoice_uri from src/src/payment/uri.rs lines 30-35, the
protocol-table form, with base_url from the environment (default
defaultBaseUrl).  This function exists in the source but is not the one
the payment-option engine calls. -/
def payment_compute_invoice_uri (baseUrl currency uid : String) : String :=
  protocolFor currency ++ ":?r=" ++ baseUrl ++ "/r/" ++ uid

/-! ## Domain records (src/src/types.rs, fields the core logic reads) -/

structure Account where
  id : Int
  denomination : Option String
deriving Repr, DecidableEq

structure Address where
  chain : String
  currency : String
  value : String
deriving Repr, DecidableEq

structure Invoice where
  id : Int
  uid : String
  amount : Int
  currency : String
  status : String
  account_id : Int
deriving Repr, DecidableEq

structure Output where
  address : String
  amount : Int
deriving Repr, DecidableEq

structure PaymentOption where
  invoice_uid : String
  currency : String
  chain : String
  amount : Int
  address : String
  outputs : List Output
  uri : String
  fee : Int
  created_at : Int
  updated_at : Int
  expires : Int
deriving Repr, DecidableEq

/-! ## The payment-option engine (src/src/payment_options.rs) -/

/-- get_new_address (src/src/payment/mod.rs lines 63-71) returns the
address record's stored value; the short id it generates is unused. -/
def get_new_address (address : Address) : String := address.value

/-- The characters of the second colon-separated piece: everything after
the first colon, up to the next colon. -/
def takeUntilColon : List Char → List Char
  | [] => []
  | c :: cs => if c = ':' then [] else c :: takeUntilColon cs

def dropThroughColon : List Char → List Char
  | [] => []
  | c :: cs => if c = ':' then cs else dropThroughColon cs

/-- The colon clean-up in build_payment_option (src/src/payment_options.rs
lines 122-124): when the address contains a colon, keep the second piece
of the colon split (the String.contains and String.splitOn of the Lean
core library are partial defs, so the split is spelled out on the
character list). -/
def cleanAddress (a : String) : String :=
  if a.data.contains ':' then ⟨takeUntilColon (dropThroughColon a.data)⟩ else a

/-- build_payment_option (src/src/payment_options.rs lines 72-177),
parameterised over the coin and price lookups and the current time.  The
invoice amount cast to f64 is exact at the magnitudes an i64 invoice
amount of this system takes and is modelled by the corresponding decimal. -/
def build_payment_option (getCoin : CoinSource) (findPrice : PriceSource)
    (now : Int) (account : Account) (invoice : Invoice)
    (address_record : Address) (chain currency : String) :
    Run (Option PaymentOption) :=
  match getCoin currency chain with
  | .error e => .err ("Failed to get coin: " ++ e)
  | .ok none => .err "Coin not found"
  | .ok (some _) =>
    let denom := account.denomination.getD "USD"
    match convert findPrice ⟨denom, currency, ⟨invoice.amount, 0⟩⟩ with
    | .panic m => .panic m
    | .err m => .err m
    | .ok conv =>
      let address := cleanAddress (get_new_address address_record)
      match to_satoshis getCoin ⟨conv, currency, chain⟩ with
      | .panic m => .panic m
      | .err m => .err m
      | .ok payment_amount =>
        .ok (some
          { invoice_uid := invoice.uid
            currency := currency
            chain := chain
            amount := payment_amount
            address := address
            outputs := [⟨address, payment_amount⟩]
            uri := compute_invoice_uri currency invoice.uid
            fee := get_fee currency payment_amount
            created_at := now
            updated_at := now
            expires := now + 900 })

/-- refresh_payment_option (src/src/payment_options.rs lines 179-240):
recomputes amount, outputs and fee from the current rate and advances
updated_at and expires by the 15-minute expiry; invoice_uid, currency,
chain, address, uri and created_at are preserved. -/
def refresh_payment_option (getCoin : CoinSource) (findPrice : PriceSource)
    (now : Int) (payment_option : PaymentOption) (invoice : Invoice)
    (account : Account) : Run PaymentOption :=
  match getCoin payment_option.currency payment_option.chain with
  | .error e => .err ("Failed to get coin: " ++ e)
  | .ok none => .err "Coin not found"
  | .ok (some _) =>
    let denom := account.denomination.getD "USD"
    match convert findPrice ⟨denom, payment_option.currency, ⟨invoice.amount, 0⟩⟩ with
    | .panic m => .panic m
    | .err m => .err m
    | .ok conv =>
      match to_satoshis getCoin
          ⟨conv, payment_option.currency, payment_option.chain⟩ with
      | .panic m => .panic m
      | .err m => .err m
      | .ok payment_amount =>
        .ok { payment_option with
              amount := payment_amount
              outputs := [⟨payment_option.address, payment_amount⟩]
              fee := get_fee payment_option.currency payment_amount
              updated_at := now
              expires := now + 900 }

/-- is_payment_option_expired (src/src/payment_options.rs lines 242-250):
the expiry timestamp is strictly before the current time.  (Timestamps are
carried as time values, so the unparsable-string branch of the source is
vacuous in the model.) -/
def is_payment_option_expired (payment_option : PaymentOption) (now : Int) : Bool :=
  payment_option.expires < now

/-! ## The store (Supabase), modelled as explicit state -/

structure Payment where
  id : Int
  txid : String
  chain : String
  currency : String
  status : String
  invoice_uid : String
  confirmation_hash : Option String
  confirmation_height : Option Int
  confirmation_date : Option Int
deriving Repr, DecidableEq

structure DB where
  invoices : List Invoice
  paymentOptionRows : List PaymentOption
  payments : List Payment
  accounts : List Account
  coins : List Coin
  prices : List PriceRow
deriving Repr, DecidableEq

/-- find_price over the DB: filter on base_currency and currency, first
row if any.  Table reads on the DB model do not fail; failing store I/O is
represented at the abstract PriceSource level where a claim needs it. -/
def DB.findPrice (db : DB) : PriceSource := fun base cur =>
  .ok ((db.prices.filter
    (fun p => p.base_currency == base && p.currency == cur)).head?)

/-- get_coin over the DB: the coin cache keyed by currency and chain. -/
def DB.getCoin (db : DB) : CoinSource := fun cur chain =>
  .ok ((db.coins.filter
    (fun c => c.currency == cur && c.chain == chain)).head?)

def DB.findInvoice (db : DB) (uid : String) : Option Invoice :=
  (db.invoices.filter (fun i => i.uid == uid)).head?

def DB.findAccount (db : DB) (account_id : Int) : Option Account :=
  (db.accounts.filter (fun a => a.id == account_id)).head?

def DB.optionsFor (db : DB) (uid : String) : List PaymentOption :=
  db.paymentOptionRows.filter (fun p => p.invoice_uid == uid)

/-- create_payment_options at the store: batch insert returning the
inserted rows. -/
def DB.createPaymentOptions (db : DB) (options : List PaymentOption) :
    DB × List PaymentOption :=
  ({ db with paymentOptionRows := db.paymentOptionRows ++ options }, options)

/-- update_invoice_status (src/src/supabase.rs lines 370-380): an
unconditional patch of the status field of the row with the given uid; no
other field is touched and no precondition on the current status exists. -/
def DB.updateInvoiceStatus (db : DB) (uid status : String) : DB :=
  { db with invoices :=
      db.invoices.map (fun i => if i.uid = uid then { i with status := status } else i) }

/-- The refresh loop of update_expired_payment_options: expired options
are refreshed (a refresh error aborts the whole call), unexpired options
pass through unchanged, in order. -/
def refreshExpiredList (getCoin : CoinSource) (findPrice : PriceSource)
    (now : Int) (invoice : Invoice) (account : Account) :
    List PaymentOption → Run (List PaymentOption)
  | [] => .ok []
  | o :: rest =>
    if is_payment_option_expired o now then
      match refresh_payment_option getCoin findPrice now o invoice account with
      | .err m => .err m
      | .panic m => .panic m
      | .ok r =>
        match refreshExpiredList getCoin findPrice now invoice account rest with
        | .err m => .err m
        | .panic m => .panic m
        | .ok rs => .ok (r :: rs)
    else
      match refreshExpiredList getCoin findPrice now invoice account rest with
      | .err m => .err m
      | .panic m => .panic m
      | .ok rs => .ok (o :: rs)

/-- update_expired_payment_options (src/src/payment_options.rs lines
252-280) over the DB model: refresh every expired option, then batch
insert the whole updated list when it is nonempty. -/
def update_expired_payment_options (db : DB) (now : Int) (invoice : Invoice)
    (payment_options : List PaymentOption) (account : Account) :
    DB × Run (List PaymentOption) :=
  match refreshExpiredList db.getCoin db.findPrice now invoice account payment_options with
  | .err m => (db, .err m)
  | .panic m => (db, .panic m)
  | .ok updated =>
    if updated.isEmpty then (db, .ok updated)
    else
      let r := db.createPaymentOptions updated
      (r.1, .ok r.2)

/-- get_invoice (src/src/supabase.rs lines 47-108): read the invoice (None
when absent), read its payment options and the account, then run the
expired-option refresh.  A refresh failure is swallowed by
unwrap_or_else, which substitutes an EMPTY option list. -/
def get_invoice (db : DB) (now : Int) (uid : String) :
    DB × Run (Option (Invoice × List PaymentOption)) :=
  match db.findInvoice uid with
  | none => (db, .ok none)
  | some invoice =>
    let payment_options := db.optionsFor uid
    match db.findAccount invoice.account_id with
    | none => (db, .err "Account not found")
    | some account =>
      match update_expired_payment_options db now invoice payment_options account with
      | (db2, .ok updated) => (db2, .ok (some (invoice, updated)))
      | (db2, .err _) => (db2, .ok (some (invoice, [])))
      | (db2, .panic m) => (db2, .panic m)

/-- cancel_invoice (src/src/supabase.rs lines 400-418): fetch the invoice,
check ownership, and unconditionally set the status to cancelled; the
current status is never examined. -/
def cancel_invoice (db : DB) (now : Int) (uid : String) (account_id : Int) :
    DB × Run Unit :=
  match get_invoice db now uid with
  | (db2, .ok none) => (db2, .err "Invoice not found")
  | (db2, .ok (some (invoice, _))) =>
    if invoice.account_id ≠ account_id then
      (db2, .err "Unauthorized to cancel this invoice")
    else
      (db2.updateInvoiceStatus uid "cancelled", .ok ())
  | (db2, .err m) => (db2, .err m)
  | (db2, .panic m) => (db2, .panic m)

/-! ## The confirmation pipeline (src/src/confirmations.rs) -/

structure Confirmation where
  confirmation_hash : String
  confirmation_height : Int
  confirmation_date : Int
  confirmations : Option Int
deriving Repr, DecidableEq

structure PaymentInfo where
  chain : String
  currency : String
  txid : String
  status : String
deriving Repr, DecidableEq

structure InvoiceInfo where
  uid : String
  status : String
deriving Repr, DecidableEq

structure ConfirmationInfo where
  hash : String
  height : Int
deriving Repr, DecidableEq

structure PaymentConfirmedPayload where
  account_id : Option String
  app_id : Option String
  payment : PaymentInfo
  invoice : InvoiceInfo
  confirmation : ConfirmationInfo
deriving Repr, DecidableEq

structure PaymentConfirmedEvent where
  topic : String
  payload : PaymentConfirmedPayload
deriving Repr, DecidableEq

/-- Modelled from the spec: supabase.update_payment is called by
confirm_payment (src/src/confirmations.rs line 103) but is not defined
anywhere under src/.  Per the specification it updates the payment row
with the confirmation hash, height and date, as a conditional update that
writes only where confirmation_hash is null (the design note on
idempotent confirmation), and returns the row. -/
def update_payment (db : DB) (id : Int) (hash : String) (height date : Int) :
    DB × Run Payment :=
  match (db.payments.filter (fun p => p.id == id)).head? with
  | none => (db, .err "Payment not found")
  | some p =>
    if p.confirmation_hash.isNone then
      let p2 := { p with
        confirmation_hash := some hash
        confirmation_height := some height
        confirmation_date := some date }
      ({ db with payments := db.payments.map (fun q => if q.id = id then p2 else q) },
       .ok p2)
    else (db, .ok p)

/-- confirm_payment (src/src/confirmations.rs lines 93-144).  The middle
component is the list of payment.confirmed events actually published: the
source constructs an event value under its comment announcing publication
(lines 117-138) but never sends it anywhere, so this list is empty on
every path; the constructed value is kept here as the unused binding the
source also has. -/
def confirm_payment (db : DB) (now : Int) (payment : Payment)
    (confirmation : Confirmation) : DB × List PaymentConfirmedEvent × Run Payment :=
  if payment.confirmation_hash.isSome then (db, [], .ok payment)
  else
    match update_payment db payment.id confirmation.confirmation_hash
        confirmation.confirmation_height confirmation.confirmation_date with
    | (db1, .err m) => (db1, [], .err m)
    | (db1, .panic m) => (db1, [], .panic m)
    | (db1, .ok updated) =>
      match get_invoice db1 now payment.invoice_uid with
      | (db2, .err m) => (db2, [], .err m)
      | (db2, .panic m) => (db2, [], .panic m)
      | (db2, .ok none) => (db2, [], .err "Invoice not found")
      | (db2, .ok (some (invoice, _))) =>
        let db3 := db2.updateInvoiceStatus invoice.uid "paid"
        let _event : PaymentConfirmedEvent :=
          { topic := "payment.confirmed"
            payload :=
              { account_id := some (toString invoice.account_id)
                app_id := none
                payment :=
                  { chain := payment.chain
                    currency := payment.currency
                    txid := payment.txid
                    status := updated.status }
                invoice := { uid := invoice.uid, status := "paid" }
                confirmation :=
                  { hash := confirmation.confirmation_hash
                    height := confirmation.confirmation_height } } }
        (db3, [], .ok updated)

/-! ## Subscription registry and session cleanup
(src/src/event_dispatcher.rs and src/src/server.rs) -/

abbrev SessionId := Nat

structure Subscription where
  sub_type : String
  id : String
deriving Repr, DecidableEq

abbrev Registry := List (Subscription × List SessionId)

/-- EventDispatcher.subscribe: insert the session into the set for the
subscription, creating the entry on first subscriber. -/
def ed_subscribe (reg : Registry) (sub : Subscription) (sid : SessionId) : Registry :=
  if reg.any (fun e => e.1 == sub) then
    reg.map (fun e =>
      if e.1 == sub then (e.1, if sid ∈ e.2 then e.2 else e.2 ++ [sid]) else e)
  else reg ++ [(sub, [sid])]

/-- EventDispatcher.unsubscribe (src/src/event_dispatcher.rs lines 30-43):
remove the session from the set; drop the entry when it becomes empty. -/
def ed_unsubscribe (reg : Registry) (sub : Subscription) (sid : SessionId) : Registry :=
  reg.filterMap (fun e =>
    if e.1 == sub then
      (let s := e.2.filter (fun x => x != sid)
       if s.isEmpty then none else some (e.1, s))
    else some e)

/-- EventDispatcher.get_subscribers: cloned snapshot, empty when absent. -/
def ed_subscribers (reg : Registry) (sub : Subscription) : List SessionId :=
  (((reg.filter (fun e => e.1 == sub)).head?).map (fun e => e.2)).getD []

structure ServerState where
  sessions : List SessionId
  registry : Registry
deriving Repr, DecidableEq

/-- The cleanup handle_connection performs when its read loop ends
(src/src/server.rs lines 289-296): the session is removed from the
session map; nothing touches the subscription registry. -/
def handle_connection_cleanup (st : ServerState) (sid : SessionId) : ServerState :=
  { st with sessions := st.sessions.filter (fun x => x != sid) }

/-! ## Helper projections used in claim statements -/

def builtAmount : Run (Option PaymentOption) → Option Int
  | .ok (some po) => some po.amount
  | _ => none

def builtUri : Run (Option PaymentOption) → Option String
  | .ok (some po) => some po.uri
  | _ => none

/-- The numeric value a successful conversion yields (0 on failure). -/
def convertedValue (findPrice : PriceSource) (req : ConversionRequest) : ℚ :=
  match convert findPrice req with
  | .ok b => b.val
  | _ => 0

def Run.isPanic {α : Type} : Run α → Bool
  | .panic _ => true
  | _ => false

/-- The smallest-unit precision the code actually applies, stated from the
amended claim: 8 for chains BTC and BSV, 18 for chain ETH, and 6 for every
other chain — DOGE, FB, SOL, XRP and all stablecoin chains included; the
stored CoinInfo precision plays no part. -/
def amendedPrecision (chain : String) : Nat :=
  if chain = "BTC" then 8
  else if chain = "BSV" then 8
  else if chain = "ETH" then 18
  else 6

/-! ## Concrete fixtures for witnesses and counterexamples -/

def acct7 : Account := ⟨7, none⟩

def gcBTC : CoinSource := fun cur ch =>
  .ok (if cur = "BTC" ∧ ch = "BTC" then some ⟨"BTC", "BTC", some 8, false⟩ else none)

def fpBTC : PriceSource := fun base cur =>
  if base = "BTC" ∧ cur = "USD" then .ok (some ⟨"USD", "BTC", ⟨25, 6⟩⟩) else .ok none

def invBTC : Invoice := ⟨1, "inv1", 10000, "USD", "unpaid", 7⟩

def addrBTC : Address := ⟨"BTC", "BTC", "bc1qtest"⟩

def poBTCBuilt : PaymentOption :=
  ⟨"inv1", "BTC", "BTC", 25000000, "bc1qtest", [⟨"bc1qtest", 25000000⟩],
   "anypay:btc_inv1", 2500, 0, 0, 900⟩

def gcDOGE : CoinSource := fun cur ch =>
  .ok (if cur = "DOGE" ∧ ch = "DOGE" then some ⟨"DOGE", "DOGE", some 8, false⟩ else none)

def fpDOGE : PriceSource := fun base cur =>
  if base = "DOGE" ∧ cur = "USD" then .ok (some ⟨"USD", "DOGE", ⟨1, 0⟩⟩) else .ok none

def invDOGE : Invoice := ⟨2, "inv2", 1, "USD", "unpaid", 7⟩

def addrDOGE : Address := ⟨"DOGE", "DOGE", "DDogeAddr"⟩

def gcXYZ : CoinSource := fun cur ch =>
  .ok (if cur = "XYZ" ∧ ch = "XYZ" then some ⟨"XYZ", "XYZ", some 8, false⟩ else none)

def fpE8 : PriceSource := fun base cur =>
  if base = "XYZ" ∧ cur = "USD" then .ok (some ⟨"USD", "XYZ", ⟨1, 8⟩⟩) else .ok none

def invXYZ : Invoice := ⟨3, "inv3", 1, "USD", "unpaid", 7⟩

def addrXYZ : Address := ⟨"XYZ", "XYZ", "xyzaddr"⟩

def fpTiny : PriceSource := fun base cur =>
  if base = "XYZ" ∧ cur = "USD" then .ok (some ⟨"USD", "XYZ", ⟨1, 9⟩⟩) else .ok none

def fp15 : PriceSource := fun base cur =>
  if base = "XYZ" ∧ cur = "USD" then .ok (some ⟨"USD", "XYZ", ⟨15, 9⟩⟩) else .ok none

def fpBoom : PriceSource := fun _ _ => .error "boom"

def fpZeroInv : PriceSource := fun base cur =>
  if base = "USD" ∧ cur = "XYZ" then .ok (some ⟨"XYZ", "USD", ⟨0, 0⟩⟩) else .ok none

def invC1 : Invoice := ⟨1, "inv1", 0, "USD", "unpaid", 7⟩

def invC1Paid : Invoice := ⟨1, "inv1", 0, "USD", "paid", 7⟩

def pay1 : Payment := ⟨1, "tx1", "BTC", "BTC", "pending", "inv1", none, none, none⟩

def pay1Confirmed : Payment :=
  ⟨1, "tx1", "BTC", "BTC", "pending", "inv1", some "H", some 100, some 0⟩

def conf1 : Confirmation := ⟨"H", 100, 0, some 1⟩

def dbC1 : DB := ⟨[invC1], [], [pay1], [acct7], [], []⟩

def dbC1After : DB := ⟨[invC1Paid], [], [pay1Confirmed], [acct7], [], []⟩

def invC4 : Invoice := ⟨1, "inv1", 1, "USD", "unpaid", 7⟩

def poExpiredC4 : PaymentOption :=
  ⟨"inv1", "XYZ", "XYZ", 100, "xyzaddr", [⟨"xyzaddr", 100⟩], "anypay:xyz_inv1",
   0, 0, 0, 10⟩

def dbC4 : DB := ⟨[invC4], [poExpiredC4], [], [acct7], [], []⟩

def dbEmpty : DB := ⟨[], [], [], [], [], []⟩

def coinXYZ : Coin := ⟨"XYZ", "XYZ", some 8, false⟩

def priceXYZ2 : PriceRow := ⟨"USD", "XYZ", ⟨2, 0⟩⟩

/-- Like dbC4, but the coin and a direct rate of 2 are present, so the
expired option refreshes successfully. -/
def dbC4s : DB := ⟨[invC4], [poExpiredC4], [], [acct7], [coinXYZ], [priceXYZ2]⟩

/-- The refresh of poExpiredC4 at time 1000 under rate 2 and precision 6:
amount 2e6, fee 2000, updated_at and expires advanced, everything else
preserved. -/
def poRefreshedC4 : PaymentOption :=
  ⟨"inv1", "XYZ", "XYZ", 2000000, "xyzaddr", [⟨"xyzaddr", 2000000⟩],
   "anypay:xyz_inv1", 2000, 0, 1000, 1900⟩

/-- dbC4s after the refreshed batch is inserted back (insert-only batch,
as the source performs). -/
def dbC4sAfter : DB :=
  ⟨[invC4], [poExpiredC4, poRefreshedC4], [], [acct7], [coinXYZ], [priceXYZ2]⟩

def invC8 : Invoice := ⟨1, "inv1", 10000, "USD", "paid", 7⟩

def invC8Cancelled : Invoice := ⟨1, "inv1", 10000, "USD", "cancelled", 7⟩

def dbC8 : DB := ⟨[invC8], [], [], [acct7], [], []⟩

def dbC8Cancelled : DB := ⟨[invC8Cancelled], [], [], [acct7], [], []⟩

def subC9 : Subscription := ⟨"invoice", "inv1"⟩

def stC9 : ServerState := ⟨[5], [(subC9, [5])]⟩

/-! ## Claim theorems -/

/-! ## Theorems -/

theorem truncTowardZero_intCast (n : Int) : truncTowardZero (n : ℚ) = n := by
  unfold truncTowardZero
  split
  · simp
  · rw [← Int.cast_neg, Int.floor_intCast]
    ring

theorem truncTowardZero_intCast_div_pow (m : Int) (k : Nat) :
    truncTowardZero ((m : ℚ) / (10 : ℚ) ^ k) = m.tdiv (10 ^ k) := by
  have hnat : (((10 ^ k : ℕ)) : ℤ) = (10 : ℤ) ^ k := by push_cast; rfl
  rcases le_or_lt 0 m with hm | hm
  · have hx : 0 ≤ (m : ℚ) / (10 : ℚ) ^ k := by positivity
    have e1 : (m : ℚ) / (10 : ℚ) ^ k = (m : ℚ) / (((10 ^ k : ℕ)) : ℚ) := by
      push_cast; ring
    rw [truncTowardZero, if_pos hx, e1, Rat.floor_intCast_div_natCast,
      Int.tdiv_eq_ediv hm (by positivity), hnat]
  · have hx : ¬ (0 ≤ (m : ℚ) / (10 : ℚ) ^ k) := by
      rw [not_le]
      apply div_neg_of_neg_of_pos
      · exact_mod_cast hm
      · positivity
    rw [truncTowardZero, if_neg hx]
    have e1 : -((m : ℚ) / (10 : ℚ) ^ k) = ((-m : ℤ) : ℚ) / (((10 ^ k : ℕ)) : ℚ) := by
      push_cast; ring
    have h1 : (-m).tdiv (10 ^ k) = (-m) / ((10 : ℤ) ^ k) :=
      Int.tdiv_eq_ediv (by omega) (by positivity)
    rw [e1, Rat.floor_intCast_div_natCast, hnat, ← h1, Int.neg_tdiv, neg_neg]

/-- The value computed by with_scale 8 is exactly truncation toward zero of
the represented value, at the fixed scale of 8 decimal digits. -/
theorem BigDec.val_withScale8 (a : BigDec) :
    (a.withScale 8).val = truncAtScale8 a.val := by
  obtain ⟨m, s⟩ := a
  rw [BigDec.withScale, truncAtScale8]
  by_cases h1 : s < (8 : Int)
  · rw [if_pos h1]
    have hv : BigDec.val ⟨m, s⟩ * 10 ^ 8 = ((m * 10 ^ ((8 : Int) - s).toNat : ℤ) : ℚ) := by
      rw [BigDec.val]
      by_cases hs : (0 : Int) ≤ s
      · rw [if_pos hs]
        have h8 : ((8 : Int) - s).toNat = 8 - s.toNat := by omega
        have hp : (10 : ℚ) ^ 8 = 10 ^ s.toNat * 10 ^ (8 - s.toNat) := by
          rw [← pow_add]
          congr 1
          omega
        push_cast
        rw [h8, hp]
        have hz : ((10 : ℚ) ^ s.toNat) ≠ 0 := by positivity
        field_simp
        ring
      · rw [if_neg hs]
        have h8 : ((8 : Int) - s).toNat = 8 + (-s).toNat := by omega
        push_cast
        rw [h8, pow_add]
        ring
    rw [hv, truncTowardZero_intCast, BigDec.val]
    norm_num [show ((8 : Int)).toNat = 8 from rfl]
  · rw [if_neg h1]
    by_cases h2 : (8 : Int) < s
    · rw [if_pos h2]
      have hv : BigDec.val ⟨m, s⟩ * 10 ^ 8 = (m : ℚ) / (10 : ℚ) ^ (s - (8 : Int)).toNat := by
        rw [BigDec.val, if_pos (by omega : (0 : Int) ≤ s)]
        have h8 : s.toNat = (s - (8 : Int)).toNat + 8 := by omega
        rw [h8, pow_add]
        have hz1 : ((10 : ℚ) ^ (s - (8 : Int)).toNat) ≠ 0 := by positivity
        have hz2 : ((10 : ℚ) ^ 8) ≠ 0 := by positivity
        field_simp
        ring
      rw [hv, truncTowardZero_intCast_div_pow, BigDec.val]
      norm_num [show ((8 : Int)).toNat = 8 from rfl]
    · have hs8 : s = 8 := by omega
      subst hs8
      have hv : BigDec.val ⟨m, (8 : Int)⟩ * 10 ^ 8 = (m : ℚ) := by
        rw [BigDec.val, if_pos (by norm_num : (0 : Int) ≤ (8 : Int))]
        have ht : ((8 : Int)).toNat = 8 := rfl
        rw [ht]
        have hz : ((10 : ℚ) ^ 8) ≠ 0 := by positivity
        field_simp
      rw [hv, truncTowardZero_intCast, BigDec.val]
      norm_num [show ((8 : Int)).toNat = 8 from rfl]

/-- The value of a BigDec as a signed power of ten. -/
theorem BigDec.val_def_zpow (a : BigDec) :
    a.val = (a.intVal : ℚ) * (10 : ℚ) ^ (-a.scale) := by
  rw [BigDec.val]
  by_cases hs : 0 ≤ a.scale
  · rw [if_pos hs]
    have h : (-a.scale) = -((a.scale.toNat : ℤ)) := by omega
    rw [h, zpow_neg, zpow_natCast, div_eq_mul_inv]
  · rw [if_neg hs]
    conv_rhs => rw [show (-a.scale) = (((-a.scale).toNat : ℤ)) from by omega, zpow_natCast]

/-- BigDecimal multiplication multiplies the represented values. -/
theorem BigDec.val_mul (a b : BigDec) : (a.mul b).val = a.val * b.val := by
  simp only [BigDec.val_def_zpow, BigDec.mul]
  rw [neg_add, zpow_add₀ (by norm_num : (10 : ℚ) ≠ 0)]
  push_cast
  ring

/-- C5 amended: convert first looks up the (base_currency, quote_currency)
rate and, if present, returns base_value = quote_value × rate truncated
toward zero at 8 decimal digits; otherwise it looks up
(quote_currency, base_currency) and, if present, returns base_value =
quote_value × (1/rate) — the reciprocal computed at BigDecimal default
division precision — truncated the same way; when neither rate exists it
fails with the error message "No price for <quote_currency> to
<base_currency>".  (Store lookup errors and a zero inverse rate escape as
panics; see C10.)  Stated as a value-level characterisation of the source
converter by the spec-side converter specConvert. -/
theorem c5_amended (findPrice : PriceSource) (req : ConversionRequest) :
    (convert findPrice req).toSpecConv = specConvert findPrice req := by
  rw [convert, specConvert]
  rcases hd : findPrice req.base_currency req.quote_currency with e | p
  · rfl
  rcases p with _ | price
  · rcases hi : findPrice req.quote_currency req.base_currency with e | q
    · rfl
    rcases q with _ | inverse
    · rfl
    · dsimp only
      by_cases hz : inverse.value.intVal = 0
      · rw [if_pos hz, if_pos hz]
        rfl
      · rw [if_neg hz, if_neg hz]
        simp only [Run.toSpecConv]
        rw [BigDec.val_withScale8, BigDec.val_mul]
  · dsimp only
    simp only [Run.toSpecConv]
    rw [BigDec.val_withScale8, BigDec.val_mul]

theorem BigDec.val_mulPow10 (b : BigDec) (p : Nat) :
    (b.mulPow10 p).val = b.val * (10 : ℚ) ^ p := by
  rw [BigDec.val_def_zpow, BigDec.val_def_zpow, BigDec.mulPow10]
  have h : -(b.scale - (p : Int)) = -b.scale + (p : Int) := by ring
  rw [h, zpow_add₀ (by norm_num : (10 : ℚ) ≠ 0), zpow_natCast]
  ring

/-- Truncation of a BigDec to an integer, toward zero: with_scale 0 on the
mantissa/scale pair. -/
theorem BigDec.withScale0_intVal (b : BigDec) :
    (b.withScale 0).intVal = truncTowardZero b.val := by
  obtain ⟨m, s⟩ := b
  rw [BigDec.withScale]
  dsimp only
  by_cases h1 : s < (0 : Int)
  · rw [if_pos h1]
    dsimp only
    have hv : BigDec.val ⟨m, s⟩ = ((m * 10 ^ ((0 : Int) - s).toNat : ℤ) : ℚ) := by
      rw [BigDec.val, if_neg (by dsimp only; omega)]
      have h0 : ((0 : Int) - s).toNat = (-s).toNat := by omega
      push_cast
      rw [h0]
    rw [hv, truncTowardZero_intCast]
  · rw [if_neg h1]
    by_cases h2 : (0 : Int) < s
    · rw [if_pos h2]
      dsimp only
      have hv : BigDec.val ⟨m, s⟩ = (m : ℚ) / (10 : ℚ) ^ (s - (0 : Int)).toNat := by
        rw [BigDec.val, if_pos (by dsimp only; omega)]
        have h0 : (s - (0 : Int)).toNat = s.toNat := by omega
        rw [h0]
      rw [hv, truncTowardZero_intCast_div_pow]
    · rw [if_neg h2]
      have hs0 : s = 0 := by omega
      subst hs0
      have hv : BigDec.val ⟨m, (0 : Int)⟩ = (m : ℚ) := by
        rw [BigDec.val, if_pos le_rfl]
        norm_num
      rw [hv, truncTowardZero_intCast]

theorem i64SatTrunc_eq_castToI64 (b : BigDec) : i64SatTrunc b = castToI64 b.val := by
  rw [i64SatTrunc, castToI64, BigDec.withScale0_intVal]

theorem amendedPrecision_eq (chain : String) :
    amendedPrecision chain = toSatoshisPrecision chain := by
  rw [amendedPrecision, toSatoshisPrecision]
  by_cases h1 : chain = "BTC"
  · simp [h1]
  · by_cases h2 : chain = "BSV" <;> simp [h1, h2]

/-- C1: the claim states confirm_payment is idempotent and that exactly one
payment.confirmed event is emitted for a given (txid, invoice_uid) pair.
Evaluating the code at a fresh unconfirmed payment: the first call updates
the store and marks the invoice paid, a second call on the now-confirmed
payment returns it unchanged without touching the store — the idempotence
half of the claim holds — but the published-event list is empty on both
calls: no payment.confirmed event is ever emitted, because confirm_payment
constructs the event value and never publishes it. -/
theorem c1_confirm_payment_publishes_no_event :
    confirm_payment dbC1 0 pay1 conf1 = (dbC1After, [], .ok pay1Confirmed) ∧
    confirm_payment dbC1After 0 pay1Confirmed conf1 = (dbC1After, [], .ok pay1Confirmed) ∧
    (dbC1After.findInvoice "inv1").map Invoice.status = some "paid" :=
  ⟨by decide, by decide, by decide⟩

/-- C2 counterexample: the claim's precision table assigns 8 to the DOGE
chain.  Building a payment option on chain DOGE with a converted base
amount of exactly 1 yields a smallest-unit amount of 10^6 — the code falls
to its default precision 6 for DOGE — where the claim requires
castToI64 (1 * 10^8) = 10^8. -/
theorem c2_counterexample :
    builtAmount (build_payment_option gcDOGE fpDOGE 0 acct7 invDOGE addrDOGE "DOGE" "DOGE")
      = some 1000000 ∧
    i64SatTrunc (BigDec.mulPow10 ⟨1, 0⟩ 8) = 10 ^ 8 ∧
    (1000000 : Int) ≠ 10 ^ 8 :=
  ⟨by decide, by decide, by decide⟩

/-- C2 amended: for every payment option built by the engine, the
smallest-unit amount equals the converted base amount multiplied by
10^precision and truncated toward zero (saturating at the i64 bounds),
where the precision is 8 for chains BTC and BSV, 18 for chain ETH, and 6
for every other chain — DOGE, FB, SOL, XRP and stablecoin chains included;
the stored CoinInfo precision is ignored. -/
theorem c2_amended (getCoin : CoinSource) (findPrice : PriceSource) (now : Int)
    (account : Account) (invoice : Invoice) (address_record : Address)
    (chain currency : String) (po : PaymentOption)
    (h : build_payment_option getCoin findPrice now account invoice
        address_record chain currency = .ok (some po)) :
    po.amount = castToI64
      (convertedValue findPrice ⟨account.denomination.getD "USD", currency, ⟨invoice.amount, 0⟩⟩
        * (10 : ℚ) ^ amendedPrecision chain) := by
  rw [build_payment_option] at h
  dsimp only at h
  split at h
  any_goals exact Run.noConfusion h
  rename_i coin hcoin
  split at h
  any_goals exact Run.noConfusion h
  rename_i conv hconv
  split at h
  any_goals exact Run.noConfusion h
  rename_i payment_amount hsat
  rw [Run.ok.injEq, Option.some.injEq] at h
  subst h
  simp only [to_satoshis, hcoin, Run.ok.injEq] at hsat
  simp only [convertedValue, hconv, amendedPrecision_eq,
    ← BigDec.val_mulPow10, ← i64SatTrunc_eq_castToI64]
  exact hsat.symm

/-- C3 counterexample: for a BTC payment option of invoice inv1, the claim
requires the uri "bitcoin:?r=https://api.anypayx.com/r/inv1" (protocol
table, base url, /r/ route); the engine instead produces
"anypay:btc_inv1", because build_payment_option uses compute_invoice_uri
from src/src/uri.rs, not the protocol-table builder of
src/src/payment/uri.rs. -/
theorem c3_counterexample :
    builtUri (build_payment_option gcBTC fpBTC 0 acct7 invBTC addrBTC "BTC" "BTC")
      = some "anypay:btc_inv1" ∧
    "anypay:btc_inv1" ≠ payment_compute_invoice_uri defaultBaseUrl "BTC" "inv1" :=
  ⟨by decide, by decide⟩

/-- C3 amended: every payment option created for an invoice has the uri
"anypay:" ++ lowercase currency ++ "_" ++ invoice uid.  The protocol-table
uri builder of src/src/payment/uri.rs exists but is not the one the
engine calls. -/
theorem c3_amended (getCoin : CoinSource) (findPrice : PriceSource) (now : Int)
    (account : Account) (invoice : Invoice) (address_record : Address)
    (chain currency : String) (po : PaymentOption)
    (h : build_payment_option getCoin findPrice now account invoice
        address_record chain currency = .ok (some po)) :
    po.uri = "anypay:" ++ lowerString currency ++ "_" ++ invoice.uid := by
  rw [build_payment_option] at h
  dsimp only at h
  split at h
  any_goals exact Run.noConfusion h
  split at h
  any_goals exact Run.noConfusion h
  split at h
  any_goals exact Run.noConfusion h
  rw [Run.ok.injEq, Option.some.injEq] at h
  subst h
  rfl

/-- C2 witness: the amended theorem applied at the BTC build fixture (an
invoice of 10000 at rate 0.000025 gives a 25000000-satoshi option at
precision 8). -/
theorem c2_amended_witness :
    build_payment_option gcBTC fpBTC 0 acct7 invBTC addrBTC "BTC" "BTC"
      = .ok (some poBTCBuilt) ∧
    poBTCBuilt.amount = castToI64
      (convertedValue fpBTC ⟨"USD", "BTC", ⟨10000, 0⟩⟩ * (10 : ℚ) ^ amendedPrecision "BTC") :=
  ⟨by decide, c2_amended gcBTC fpBTC 0 acct7 invBTC addrBTC "BTC" "BTC" poBTCBuilt (by decide)⟩

/-- C3 witness: the amended theorem applied at the BTC build fixture. -/
theorem c3_amended_witness :
    build_payment_option gcBTC fpBTC 0 acct7 invBTC addrBTC "BTC" "BTC"
      = .ok (some poBTCBuilt) ∧
    poBTCBuilt.uri = "anypay:" ++ lowerString "BTC" ++ "_" ++ "inv1" :=
  ⟨by decide, c3_amended gcBTC fpBTC 0 acct7 invBTC addrBTC "BTC" "BTC" poBTCBuilt (by decide)⟩

/-- C4 counterexample: invoice inv1 exists and owns a single expired
payment option whose coin row is missing, so the refresh step fails; get
then returns the invoice with an EMPTY option list, where the claim
requires the unrefreshed set, which is nonempty. -/
theorem c4_counterexample :
    get_invoice dbC4 1000 "inv1" = (dbC4, .ok (some (invC4, []))) ∧
    dbC4.optionsFor "inv1" = [poExpiredC4] ∧
    ([] : List PaymentOption) ≠ [poExpiredC4] :=
  ⟨by decide, by decide, by decide⟩

/-- C4 amended: get returns None when the invoice is absent; when it is
present, get returns the invoice together with exactly the options the
best-effort refresh step produces (expired ones refreshed, unexpired ones
passed through) and the store state the refresh leaves behind — but when
the refresh step fails, the caught failure is replaced by an EMPTY list of
options, not the unrefreshed set. -/
theorem c4_amended (db : DB) (now : Int) (uid : String) :
    (db.findInvoice uid = none → get_invoice db now uid = (db, .ok none)) ∧
    (∀ invoice account db2 opts,
      db.findInvoice uid = some invoice →
      db.findAccount invoice.account_id = some account →
      update_expired_payment_options db now invoice (db.optionsFor uid) account
        = (db2, .ok opts) →
      get_invoice db now uid = (db2, .ok (some (invoice, opts)))) ∧
    (∀ invoice account m,
      db.findInvoice uid = some invoice →
      db.findAccount invoice.account_id = some account →
      update_expired_payment_options db now invoice (db.optionsFor uid) account
        = (db, .err m) →
      get_invoice db now uid = (db, .ok (some (invoice, [])))) := by
  refine ⟨?_, ?_, ?_⟩
  · intro hnone
    simp only [get_invoice, hnone]
  · intro invoice account db2 opts hinv hacct hupd
    simp only [get_invoice, hinv, hacct, hupd]
  · intro invoice account m hinv hacct hupd
    simp only [get_invoice, hinv, hacct, hupd]

/-- C4 witness: the amended theorem applied on all three branches — a
successful refresh of an expired option (nonempty result, refreshed
amount), a failing refresh (empty result), and an absent invoice. -/
theorem c4_amended_witness :
    dbC4s.findInvoice "inv1" = some invC4 ∧
    dbC4s.findAccount invC4.account_id = some acct7 ∧
    update_expired_payment_options dbC4s 1000 invC4 (dbC4s.optionsFor "inv1") acct7
      = (dbC4sAfter, .ok [poRefreshedC4]) ∧
    get_invoice dbC4s 1000 "inv1" = (dbC4sAfter, .ok (some (invC4, [poRefreshedC4]))) ∧
    update_expired_payment_options dbC4 1000 invC4 (dbC4.optionsFor "inv1") acct7
      = (dbC4, .err "Coin not found") ∧
    get_invoice dbC4 1000 "inv1" = (dbC4, .ok (some (invC4, []))) ∧
    get_invoice dbEmpty 1000 "nope" = (dbEmpty, .ok none) :=
  ⟨by decide, by decide, by decide,
   (c4_amended dbC4s 1000 "inv1").2.1 invC4 acct7 dbC4sAfter [poRefreshedC4]
     (by decide) (by decide) (by decide),
   by decide,
   (c4_amended dbC4 1000 "inv1").2.2 invC4 acct7 "Coin not found"
     (by decide) (by decide) (by decide),
   (c4_amended dbEmpty 1000 "nope").1 (by decide)⟩

/-- C5 counterexample: with a direct XYZ/USD rate of 1e-9 and quote value
1, convert succeeds but returns base_value 0, not the exact product 1e-9
the claim states: the result is truncated at scale 8 first. -/
theorem c5_counterexample :
    convert fpTiny ⟨"USD", "XYZ", ⟨1, 0⟩⟩ = .ok ⟨0, 8⟩ ∧
    BigDec.val ⟨0, 8⟩ ≠ BigDec.val ⟨1, 0⟩ * BigDec.val ⟨1, 9⟩ := by
  refine ⟨by decide, ?_⟩
  norm_num [BigDec.val, show ((8 : Int)).toNat = 8 from rfl,
    show ((0 : Int)).toNat = 0 from rfl, show ((9 : Int)).toNat = 9 from rfl]

/-- C6 counterexample: with a direct rate of 1.5e-8 and quote value 1 the
code returns 1e-8 — truncation toward zero at scale 8 — while half-up
rounding of the exact product at scale 8 is 2e-8. -/
theorem c6_counterexample :
    convert fp15 ⟨"USD", "XYZ", ⟨1, 0⟩⟩ = .ok ⟨1, 8⟩ ∧
    BigDec.val ⟨1, 8⟩ ≠ halfUpAtScale8 (BigDec.val ⟨1, 0⟩ * BigDec.val ⟨15, 9⟩) := by
  refine ⟨by decide, ?_⟩
  have hprod : BigDec.val ⟨1, 0⟩ * BigDec.val ⟨15, 9⟩ = 15 / 10 ^ 9 := by
    norm_num [BigDec.val, show ((0 : Int)).toNat = 0 from rfl,
      show ((9 : Int)).toNat = 9 from rfl]
  rw [hprod, halfUpAtScale8]
  have h2 : (15 / 10 ^ 9 * 10 ^ 8 + 1 / 2 : ℚ) = ((2 : ℤ) : ℚ) := by norm_num
  rw [h2, Int.floor_intCast]
  norm_num [BigDec.val, show ((8 : Int)).toNat = 8 from rfl]

/-- C6 amended: every successful conversion returns the exact pipeline
product — quote_value × rate, or quote_value × (1/rate) at BigDecimal
division precision on the inverted path — rounded to a fixed scale of 8
decimal digits by truncation toward zero, not by half-up rounding. -/
theorem c6_amended (findPrice : PriceSource) (req : ConversionRequest) (q : BigDec)
    (h : convert findPrice req = .ok q) :
    q.val = truncAtScale8 (convertExactProduct findPrice req) := by
  rw [convert] at h
  split at h
  · exact Run.noConfusion h
  · rename_i price hd
    rw [Run.ok.injEq] at h
    subst h
    simp only [convertExactProduct, hd]
    rw [BigDec.val_withScale8, BigDec.val_mul]
  · rename_i hd
    split at h
    · exact Run.noConfusion h
    · rename_i inverse hi
      split at h
      · exact Run.noConfusion h
      · rw [Run.ok.injEq] at h
        subst h
        simp only [convertExactProduct, hd, hi]
        rw [BigDec.val_withScale8, BigDec.val_mul]
    · exact Run.noConfusion h

/-- C6 witness: the amended theorem applied at the BTC fixture. -/
theorem c6_amended_witness :
    convert fpBTC ⟨"USD", "BTC", ⟨10000, 0⟩⟩ = .ok ⟨25000000, 8⟩ ∧
    BigDec.val ⟨25000000, 8⟩
      = truncAtScale8 (convertExactProduct fpBTC ⟨"USD", "BTC", ⟨10000, 0⟩⟩) :=
  ⟨by decide, c6_amended fpBTC ⟨"USD", "BTC", ⟨10000, 0⟩⟩ ⟨25000000, 8⟩ (by decide)⟩

/-- C7 counterexample: chain XYZ at direct rate 1e-8 with invoice amount
1: the built option has amount 0 although the invoice amount is positive —
the converted value truncates below one smallest unit, refuting the
claimed positivity. -/
theorem c7_counterexample :
    builtAmount (build_payment_option gcXYZ fpE8 1000 acct7 invXYZ addrXYZ "XYZ" "XYZ")
      = some 0 ∧
    0 < invXYZ.amount :=
  ⟨by decide, by decide⟩

/-- C7 amended: every payment option produced by build or refresh has
amount equal to the sum of its outputs' amounts, and its expires timestamp
strictly later than its updated_at timestamp; the claimed positivity of
the amount for a positive invoice amount does not hold in general, since
the converted amount can truncate to zero. -/
theorem c7_amended (getCoin : CoinSource) (findPrice : PriceSource) (now : Int)
    (account : Account) (invoice : Invoice) (address_record : Address)
    (chain currency : String) (source_option : PaymentOption) (po : PaymentOption)
    (h : build_payment_option getCoin findPrice now account invoice
          address_record chain currency = .ok (some po) ∨
        refresh_payment_option getCoin findPrice now source_option invoice account
          = .ok po) :
    po.amount = (po.outputs.map Output.amount).sum ∧ po.updated_at < po.expires := by
  rcases h with h | h
  · rw [build_payment_option] at h
    dsimp only at h
    split at h
    any_goals exact Run.noConfusion h
    split at h
    any_goals exact Run.noConfusion h
    split at h
    any_goals exact Run.noConfusion h
    rw [Run.ok.injEq, Option.some.injEq] at h
    subst h
    dsimp only
    exact ⟨by simp, by omega⟩
  · rw [refresh_payment_option] at h
    dsimp only at h
    split at h
    any_goals exact Run.noConfusion h
    split at h
    any_goals exact Run.noConfusion h
    split at h
    any_goals exact Run.noConfusion h
    rw [Run.ok.injEq] at h
    subst h
    dsimp only
    exact ⟨by simp, by omega⟩

/-- C7 witness: the amended theorem applied at the BTC build fixture. -/
theorem c7_amended_witness :
    (build_payment_option gcBTC fpBTC 0 acct7 invBTC addrBTC "BTC" "BTC"
        = .ok (some poBTCBuilt) ∨
      refresh_payment_option gcBTC fpBTC 0 poBTCBuilt invBTC acct7 = .ok poBTCBuilt) ∧
    (poBTCBuilt.amount = (poBTCBuilt.outputs.map Output.amount).sum ∧
      poBTCBuilt.updated_at < poBTCBuilt.expires) :=
  ⟨Or.inl (by decide),
   c7_amended gcBTC fpBTC 0 acct7 invBTC addrBTC "BTC" "BTC" poBTCBuilt poBTCBuilt
     (Or.inl (by decide))⟩

/-- C8 counterexample: the invoice of dbC8 has status paid and belongs to
account 7; cancel_invoice by its owner succeeds and moves it to cancelled,
refuting the claim that no core operation moves a paid invoice to
cancelled. -/
theorem c8_counterexample :
    cancel_invoice dbC8 0 "inv1" 7 = (dbC8Cancelled, .ok ()) ∧
    (dbC8.findInvoice "inv1").map Invoice.status = some "paid" ∧
    (dbC8Cancelled.findInvoice "inv1").map Invoice.status = some "cancelled" :=
  ⟨by decide, by decide, by decide⟩

/-- C8 amended: the uid is immutable — a status update rewrites only the
status field and preserves the uid of every row — but status transitions
are unrestricted: cancel_invoice checks only ownership, so it moves an
owned invoice to cancelled regardless of its current status, including
from paid. -/
theorem c8_amended (db db2 : DB) (now : Int) (uid : String) (account_id : Int)
    (invoice : Invoice) (opts : List PaymentOption)
    (h1 : get_invoice db now uid = (db2, .ok (some (invoice, opts))))
    (h2 : invoice.account_id = account_id) :
    cancel_invoice db now uid account_id
      = (db2.updateInvoiceStatus uid "cancelled", .ok ()) ∧
    (db2.updateInvoiceStatus uid "cancelled").invoices.map Invoice.uid
      = db2.invoices.map Invoice.uid ∧
    ∀ j ∈ (db2.updateInvoiceStatus uid "cancelled").invoices,
      j.uid = uid → j.status = "cancelled" := by
  subst h2
  refine ⟨?_, ?_, ?_⟩
  · simp only [cancel_invoice, h1]
    simp
  · rw [DB.updateInvoiceStatus]
    dsimp only
    rw [List.map_map]
    apply List.map_congr_left
    intro i hi
    by_cases hic : i.uid = uid
    · simp [hic]
    · simp [hic]
  · intro j hj hjuid
    rw [DB.updateInvoiceStatus] at hj
    dsimp only at hj
    rw [List.mem_map] at hj
    obtain ⟨i, hi, rfl⟩ := hj
    by_cases hic : i.uid = uid
    · rw [if_pos hic]
    · rw [if_neg hic] at hjuid ⊢
      exact absurd hjuid hic

/-- C8 witness: the amended theorem applied at the paid-invoice fixture. -/
theorem c8_amended_witness :
    get_invoice dbC8 0 "inv1" = (dbC8, .ok (some (invC8, []))) ∧
    invC8.account_id = 7 ∧
    cancel_invoice dbC8 0 "inv1" 7 = (dbC8.updateInvoiceStatus "inv1" "cancelled", .ok ()) :=
  ⟨by decide, by decide,
   (c8_amended dbC8 dbC8 0 "inv1" 7 invC8 [] (by decide) (by decide)).1⟩

/-- C9 counterexample: session 5 is subscribed to invoice inv1; after its
connection terminates and the cleanup runs, the session is gone from the
session map but its id still appears in the subscriber set, refuting the
claim that every subscription of the session is removed. -/
theorem c9_counterexample :
    (handle_connection_cleanup stC9 5).sessions = [] ∧
    5 ∈ ed_subscribers (handle_connection_cleanup stC9 5).registry subC9 :=
  ⟨by decide, by decide⟩

theorem regPurgeAux (reg : Registry) (sub : Subscription) (sid : SessionId) :
    sid ∉ ed_subscribers (ed_unsubscribe reg sub sid) sub := by
  induction reg with
  | nil => simp [ed_unsubscribe, ed_subscribers]
  | cons e rest ih =>
    rw [ed_unsubscribe, List.filterMap_cons]
    by_cases he : (e.1 == sub) = true
    · rw [if_pos he]
      by_cases hemp : (e.2.filter (fun x => x != sid)).isEmpty = true
      · rw [if_pos hemp]
        exact ih
      · rw [if_neg hemp]
        simp only [ed_subscribers, List.filter_cons]
        rw [if_pos he]
        simp [List.mem_filter]
    · rw [if_neg he]
      simp only [ed_subscribers, List.filter_cons]
      rw [if_neg he]
      exact ih

/-- C9 amended: when a connection terminates, the session is removed from
the SessionBus session map, but the SubscriptionRegistry is left entirely
unchanged — the session id keeps appearing in subscriber sets; a session
id leaves a subscriber set only through an explicit unsubscribe for that
subscription. -/
theorem c9_amended (st : ServerState) (sid : SessionId) (sub : Subscription) :
    sid ∉ (handle_connection_cleanup st sid).sessions ∧
    (handle_connection_cleanup st sid).registry = st.registry ∧
    sid ∉ ed_subscribers (ed_unsubscribe st.registry sub sid) sub := by
  refine ⟨?_, rfl, regPurgeAux st.registry sub sid⟩
  rw [handle_connection_cleanup]
  dsimp only
  intro hmem
  rw [List.mem_filter] at hmem
  simp at hmem

/-- C10 counterexample: a store lookup error makes convert panic (the
source unwraps the store result), and a zero inverse rate makes it panic
inside BigDecimal division; the claim that convert always returns
normally is refuted. -/
theorem c10_counterexample :
    convert fpBoom ⟨"USD", "XYZ", ⟨1, 0⟩⟩ = .panic "boom" ∧
    convert fpZeroInv ⟨"USD", "XYZ", ⟨1, 0⟩⟩ = .panic "Division by zero" :=
  ⟨by decide, by decide⟩

/-- C10 amended: convert returns normally — a result or an error value —
for every request against a store whose lookups succeed and whose inverse
rate, when one is consulted, is nonzero; a store lookup error or a zero
inverse rate causes a panic. -/
theorem c10_amended (findPrice : PriceSource) (req : ConversionRequest)
    (hok : ∀ a b, ∃ v, findPrice a b = .ok v)
    (hz : ∀ p, findPrice req.quote_currency req.base_currency = .ok (some p) →
      p.value.intVal ≠ 0) :
    (convert findPrice req).isPanic = false := by
  obtain ⟨v1, h1⟩ := hok req.base_currency req.quote_currency
  rcases v1 with _ | price
  · obtain ⟨v2, h2⟩ := hok req.quote_currency req.base_currency
    rcases v2 with _ | inverse
    · simp [convert, h1, h2, Run.isPanic]
    · have hnz := hz inverse h2
      simp [convert, h1, h2, hnz, Run.isPanic]
  · simp [convert, h1, Run.isPanic]

/-- C10 witness: the amended theorem applied to the total BTC price
store. -/
theorem c10_amended_witness :
    (convert fpBTC ⟨"USD", "BTC", ⟨10000, 0⟩⟩).isPanic = false :=
  c10_amended fpBTC ⟨"USD", "BTC", ⟨10000, 0⟩⟩
    (fun a b => by
      rw [fpBTC]
      split
      · exact ⟨_, rfl⟩
      · exact ⟨_, rfl⟩)
    (fun p hp => by
      rw [fpBTC] at hp
      rw [if_neg (by decide)] at hp
      simp at hp)

end Anypay
